import Mathlib

/-!
Verification of the session/streaming orchestration logic of the
`04-web-rtc-minimal-app` realtime client (`realtime_client.py`).

The embedding below translates the repository's own orchestration code into
Lean: the bounded capture hand-off queue of `MicTrack`, the `recv` frame
wrapper, the data-channel transcript handler, the teardown sequence of
`AzureRealtimeClient.close`, the session-negotiation / connect sequence, and
the playback sample rescaling of `_play`.  External collaborators (aiortc,
sounddevice, httpx) appear only through the effects the code invokes on them:
queue operations, stream open/close flags, HTTP status checks.
-/

namespace RealtimeClient

/-- An audio block: the sample values of one fixed-size capture buffer
(`indata` in `MicTrack._callback`, 16-bit signed samples). -/
abbrev Block := List Int

/-- Error raised by `asyncio.Queue.put_nowait` when the queue is at capacity. -/
inductive QueueError where
  | full
deriving DecidableEq

/-- Capacity of the `MicTrack` hand-off queue:
`asyncio.Queue(maxsize=8)` in `MicTrack.__init__`. -/
def queueMaxsize : Nat := 8

/-- Semantics of `asyncio.Queue.put_nowait` on a queue with `maxsize = 8`:
append the item when below capacity, raise `QueueFull` otherwise.  The queue
content is the list of blocks in FIFO order (head = oldest). -/
def put_nowait (q : List Block) (b : Block) : Except QueueError (List Block) :=
  if q.length < queueMaxsize then .ok (q ++ [b]) else .error .full

/-- `MicTrack._callback`: copies the incoming block and tries
`put_nowait`; a `QueueFull` error is caught (`except asyncio.QueueFull: pass`)
and the block is dropped, leaving the queue unchanged.  The function is total:
the hardware callback never blocks and no error escapes. -/
def micTrackCallback (q : List Block) (b : Block) : List Block :=
  match put_nowait q b with
  | .ok q2 => q2
  | .error _ => q

/-- One capture callback invocation, additionally recording the dropped
blocks: first component is the queue, second the list of blocks dropped so
far (in drop order). -/
def captureStep (s : List Block × List Block) (b : Block) : List Block × List Block :=
  match put_nowait s.1 b with
  | .ok q2 => (q2, s.2)
  | .error _ => (s.1, s.2 ++ [b])

/-- A sequence of capture callback invocations starting from an empty queue
with no intervening `recv()` calls: returns the final queue content and the
list of dropped blocks. -/
def captureRun (bs : List Block) : List Block × List Block :=
  bs.foldl captureStep ([], [])

/-- The queue sizes observed after each prefix of a callback sequence. -/
def runSizes (bs : List Block) : List Nat :=
  (List.range (bs.length + 1)).map (fun n => (captureRun (bs.take n)).1.length)

/-- An audio frame as built by `MicTrack.recv`: `AudioFrame(format="s16",
layout="mono", samples=len(pcm))` filled with the block's bytes, tagged with
`frame.sample_rate = self.rate` and `frame.pts = self._pts`. -/
structure Frame where
  samples : Nat
  data : Block
  sample_rate : Nat
  pts : Nat
deriving DecidableEq

/-- The mutable state of a `MicTrack` relevant to `recv`: the hand-off queue,
the accumulated presentation timestamp `_pts` (starts at 0 in `__init__`),
and the configured sample `rate`. -/
structure MicTrackState where
  queue : List Block
  pts : Nat
  rate : Nat

/-- `MicTrack.recv`: awaits `self._queue.get()` (suspends on an empty queue,
modelled as `none`), wraps the block into a frame with the configured sample
rate and the current `_pts`, then advances `_pts` by `len(pcm)`. -/
def MicTrackState.recv : MicTrackState → Option (Frame × MicTrackState)
  | ⟨[], _, _⟩ => none
  | ⟨b :: rest, p, r⟩ => some (⟨b.length, b, r, p⟩, ⟨rest, p + b.length, r⟩)

/-- Iterate `recv` over queue content `bs` starting at timestamp `p`. -/
def recvAllAux (bs : List Block) (p : Nat) (r : Nat) : List Frame :=
  match bs with
  | [] => []
  | b :: rest => ⟨b.length, b, r, p⟩ :: recvAllAux rest (p + b.length) r

/-- The frames returned by calling `recv` once per queued block. -/
def recvAll (st : MicTrackState) : List Frame :=
  recvAllAux st.queue st.pts st.rate

/-- `recvAll` is the exhaustive iteration of the one-step `recv`. -/
theorem recvAll_eq_recv (st : MicTrackState) :
    recvAll st = match st.recv with
      | none => []
      | some (f, st2) => f :: recvAll st2 := by
  obtain ⟨q, p, r⟩ := st
  cases q <;> rfl

theorem recvAllAux_length (bs : List Block) (p r : Nat) :
    (recvAllAux bs p r).length = bs.length := by
  induction bs generalizing p with
  | nil => rfl
  | cons b rest ih => simp [recvAllAux, ih]

theorem recvAllAux_get_pts (bs : List Block) (p r i : Nat)
    (hi : i < (recvAllAux bs p r).length) :
    ((recvAllAux bs p r).get ⟨i, hi⟩).pts = p + ((bs.take i).map List.length).sum := by
  induction bs generalizing p i with
  | nil => simp [recvAllAux] at hi
  | cons b rest ih =>
    cases i with
    | zero => simp [recvAllAux]
    | succ j =>
      have hj : j < (recvAllAux rest (p + b.length) r).length := by
        have := hi
        simp only [recvAllAux, List.length_cons] at this
        simpa using Nat.lt_of_succ_lt_succ this
      have step := ih (p + b.length) j hj
      simp only [recvAllAux, List.get_cons_succ, List.take_succ_cons, List.map_cons,
        List.sum_cons]
      rw [step]
      omega

theorem recvAllAux_sum_take (bs : List Block) (p r i : Nat)
    (hi : i < (recvAllAux bs p r).length) :
    ((bs.take (i + 1)).map List.length).sum
      = ((bs.take i).map List.length).sum + ((recvAllAux bs p r).get ⟨i, hi⟩).samples := by
  induction bs generalizing p i with
  | nil => simp [recvAllAux] at hi
  | cons b rest ih =>
    cases i with
    | zero => simp [recvAllAux]
    | succ j =>
      have hj : j < (recvAllAux rest (p + b.length) r).length := by
        have := hi
        simp only [recvAllAux, List.length_cons] at this
        simpa using Nat.lt_of_succ_lt_succ this
      have step := ih (p + b.length) j hj
      simp only [recvAllAux, List.get_cons_succ, List.take_succ_cons, List.map_cons,
        List.sum_cons]
      rw [step]
      omega

theorem recvAllAux_map_data (bs : List Block) (p r : Nat) :
    (recvAllAux bs p r).map Frame.data = bs := by
  induction bs generalizing p with
  | nil => rfl
  | cons b rest ih => simp [recvAllAux, ih]

theorem recvAllAux_mem (bs : List Block) (p r : Nat) :
    ∀ f ∈ recvAllAux bs p r, f.sample_rate = r ∧ f.samples = f.data.length := by
  induction bs generalizing p with
  | nil => intro f hf; exact absurd hf (List.not_mem_nil f)
  | cons b rest ih =>
    intro f hf
    rcases List.mem_cons.mp hf with h | h
    · subst h; exact ⟨rfl, rfl⟩
    · exact ih (p + b.length) f h

/-- JSON values, as produced by `json.loads` (numbers restricted to the
integers, which is all the claims need). -/
inductive Json where
  | jnull
  | jbool (b : Bool)
  | jint (n : Int)
  | jstr (s : String)
  | jarr (xs : List Json)
  | jobj (fields : List (String × Json))

/-- Whether a JSON value is a string. -/
def Json.isStr : Json → Bool
  | .jstr _ => true
  | _ => false

/-- Python `dict.get(k)` on a JSON value: field lookup on an object, `none`
otherwise (on a non-object, `.get` itself raises; callers model that case
separately). -/
def Json.getField : Json → String → Option Json
  | .jobj fs, k => fs.lookup k
  | _, _ => none

/-- Exceptions the handler and connect code paths can raise. -/
inductive PyExn where
  | attrError
  | keyError (key : String)
  | typeError
  | jsonDecodeError
  | httpStatusError (status : Nat)
deriving DecidableEq

/-- Python subscription `j[k]` with a string key: field lookup on an object
(`KeyError` when absent), `TypeError` on any non-object value. -/
def Json.index : Json → String → Except PyExn Json
  | .jobj fs, k =>
    match fs.lookup k with
    | some v => .ok v
    | none => .error (.keyError k)
  | _, _ => .error .typeError

/-- The `try:` body of `_on_message` in `AzureRealtimeClient.connect`:
`msg = json.loads(data)` (`none` models invalid JSON, raising
`JSONDecodeError`); `if msg.get("type") == "text":` (attribute error on a
non-dict); on match, `self._transcripts.put(msg["text"]["value"])`.  The
result is the list of transcript events enqueued by the body. -/
def handlerBody : Option Json → Except PyExn (List Json)
  | none => .error .jsonDecodeError
  | some (.jobj fs) =>
    match fs.lookup "type" with
    | some (.jstr t) =>
      if t = "text" then
        match fs.lookup "text" with
        | none => .error (.keyError "text")
        | some (.jobj tfs) =>
          match tfs.lookup "value" with
          | none => .error (.keyError "value")
          | some v => .ok [v]
        | some _ => .error .typeError
      else .ok []
    | some _ => .ok []
    | none => .ok []
  | some _ => .error .attrError

/-- `_on_message` as a whole: the body wrapped in
`except Exception: pass` — any raised exception is swallowed and nothing is
enqueued. -/
def handleMessage (d : Option Json) : List Json :=
  match handlerBody d with
  | .ok evs => evs
  | .error _ => []

/-- The transcript queue content after feeding a sequence of data-channel
messages through `_on_message`, starting from the empty queue created in
`__init__`.  `asyncio.Queue()` is unbounded and FIFO; `transcripts()`
(`yield await self._transcripts.get()`) yields exactly this list in order. -/
def transcriptQueue (msgs : List (Option Json)) : List Json :=
  msgs.foldl (fun q d => q ++ handleMessage d) []

/-- A control message of the recognized shape carrying string `s`. -/
def textMessage (s : String) : Json :=
  .jobj [("type", .jstr "text"), ("text", .jobj [("value", .jstr s)])]

/-- State of an `AzureRealtimeClient` together with the audio streams its
tasks own.  `micOpen` / `speakerFieldOpen`: `none` while the field is `None`,
`some b` once a track/stream exists with `b` recording whether its underlying
device stream is open.  `relayOpen` lists the open flags of the playback
streams opened by `_play` relay tasks (these are local to the task, not
stored on the client).  `pcOpen` is the `RTCPeerConnection` handle created
in `__init__`. -/
structure ClientState where
  pcOpen : Bool
  micOpen : Option Bool
  speakerFieldOpen : Option Bool
  relayOpen : List Bool
  sessionId : Option Json
  bearer : Option Json
  localDescSet : Bool
  remoteDescSet : Bool
  tracksAdded : Nat

/-- The state right after `AzureRealtimeClient.__init__`: the peer connection
exists, every other field is `None`/empty. -/
def initState : ClientState :=
  ⟨true, none, none, [], none, none, false, false, 0⟩

/-- Fault injection for the three teardown steps of `close()`: whether
stopping the `_speaker_stream` field, stopping the mic track, or closing the
peer connection raises. -/
structure TeardownFaults where
  speakerStopFails : Bool
  micStopFails : Bool
  pcCloseFails : Bool
deriving DecidableEq

/-- No teardown step fails (normal operation). -/
def noFaults : TeardownFaults := ⟨false, false, false⟩

/-- `AzureRealtimeClient.close`, run under fault injection `f`.  The code is
a straight-line sequence with no exception handling:
`if self._speaker_stream is not None: stop/close it`;
`if self._mic_track is not None: await self._mic_track.stop()`;
`await self.pc.close()`.  A raising step aborts the rest; the second
component records whether `close` ran to completion (`false` = an exception
escaped).  Playback streams owned by `_play` relay tasks are not touched. -/
def closeRun (st : ClientState) (f : TeardownFaults) : ClientState × Bool :=
  match st.speakerFieldOpen with
  | some _ =>
    if f.speakerStopFails then (st, false)
    else closeRunMic { st with speakerFieldOpen := some false } f
  | none => closeRunMic st f
where
  closeRunMic (st : ClientState) (f : TeardownFaults) : ClientState × Bool :=
    match st.micOpen with
    | some _ =>
      if f.micStopFails then (st, false)
      else closeRunPc { st with micOpen := some false } f
    | none => closeRunPc st f
  closeRunPc (st : ClientState) (f : TeardownFaults) : ClientState × Bool :=
    if f.pcCloseFails then (st, false) else ({ st with pcOpen := false }, true)

/-- Whether an optional stream handle is currently open. -/
def streamOpen : Option Bool → Bool
  | some true => true
  | _ => false

/-- No audio stream (capture, speaker field, relay playback) and no peer
connection handle remains open. -/
def noOpenHandles (st : ClientState) : Bool :=
  !streamOpen st.micOpen && !streamOpen st.speakerFieldOpen &&
    !st.relayOpen.any id && !st.pcOpen

/-- The client state after a successful `connect()` once the inbound relay
task `_play` has received its first frame and opened its playback stream:
mic capturing, one track added, both descriptions set, one relay playback
stream open, `_speaker_stream` still `None` (no code path assigns it). -/
def connectedPlaybackState : ClientState :=
  ⟨true, some true, none, [true], some (.jstr "sess1"), some (.jstr "tok"),
    true, true, 1⟩

/-- An HTTP response as seen through httpx: status code and JSON body. -/
structure HttpResponse where
  status : Nat
  body : Json

/-- httpx `Response.is_success`: 2xx.  `raise_for_status()` raises
`HTTPStatusError` exactly when this is false. -/
def isSuccess (status : Nat) : Bool :=
  200 ≤ status && status < 300

/-- `AzureRealtimeClient._create_session` given the negotiation endpoint's
response: `res.raise_for_status()` first (so on a non-success status the
session fields are left untouched), then `self.session_id = js["id"]` and
`self._bearer = js["client_secret"]["value"]` in that order.  Returns the
state after the call and the exception that escaped, if any. -/
def createSessionRun (st : ClientState) (res : HttpResponse) :
    ClientState × Option PyExn :=
  if isSuccess res.status then
    match res.body.index "id" with
    | .error e => (st, some e)
    | .ok idv =>
      let st1 := { st with sessionId := some idv }
      match res.body.index "client_secret" with
      | .error e => (st1, some e)
      | .ok cs =>
        match cs.index "value" with
        | .error e => (st1, some e)
        | .ok tok => ({ st1 with bearer := some tok }, none)
  else (st, some (.httpStatusError res.status))

/-- `AzureRealtimeClient.connect` given the two HTTP responses it receives:
`await self._create_session()` first (an exception there aborts before any
transport work); then `MicTrack()` is created (opening the capture stream)
and added to the connection, the track/datachannel handlers are registered,
the local description is set, the SDP offer is POSTed and
`ans.raise_for_status()` checked, and finally the remote description is
applied. -/
def connectRun (st : ClientState) (sessionRes handshakeRes : HttpResponse) :
    ClientState × Option PyExn :=
  match createSessionRun st sessionRes with
  | (st1, some e) => (st1, some e)
  | (st1, none) =>
    let st2 := { st1 with
      micOpen := some true, tracksAdded := st1.tracksAdded + 1,
      localDescSet := true }
    if isSuccess handshakeRes.status then
      ({ st2 with remoteDescSet := true }, none)
    else (st2, some (.httpStatusError handshakeRes.status))

/-- Numpy dtypes distinguished by `_play`. -/
inductive DType where
  | int16
  | float32
  | otherDType
deriving DecidableEq

/-- A numpy sample array: dtype tag plus sample values.  Rational sample
values model the exact reals involved; every value `s / 32768` with
`|s| ≤ 32768` is exactly representable in binary32, so the rational model is
faithful to `astype("float32") / 32768.0`. -/
structure NdArray where
  dtype : DType
  samples : List ℚ
deriving DecidableEq

/-- The rescaling step of `_play`:
`if pcm.dtype == np.int16: pcm = pcm.astype("float32") / 32768.0` —
16-bit integer frames are divided samplewise by 32768, every other dtype is
passed through unchanged. -/
def rescaleToFloat (a : NdArray) : NdArray :=
  if a.dtype = .int16 then ⟨.float32, a.samples.map (fun s => s / 32768)⟩
  else a

/-! Capture hand-off queue theorems. -/

theorem captureRun_foldl (bs : List Block) (q d : List Block)
    (h : q.length ≤ queueMaxsize) :
    bs.foldl captureStep (q, d)
      = (q ++ bs.take (queueMaxsize - q.length),
         d ++ bs.drop (queueMaxsize - q.length)) := by
  induction bs generalizing q d with
  | nil => simp
  | cons b rest ih =>
    by_cases hlt : q.length < queueMaxsize
    · have hstep : captureStep (q, d) b = (q ++ [b], d) := by
        simp [captureStep, put_nowait, hlt]
      have hlen : (q ++ [b]).length ≤ queueMaxsize := by
        simp only [List.length_append, List.length_cons, List.length_nil]
        omega
      have hsub : queueMaxsize - q.length = (queueMaxsize - (q ++ [b]).length) + 1 := by
        simp only [List.length_append, List.length_cons, List.length_nil]
        omega
      rw [List.foldl_cons, hstep, ih (q ++ [b]) d hlen, hsub, List.take_succ_cons,
        List.drop_succ_cons]
      simp [List.append_assoc]
    · have he : q.length = queueMaxsize := by omega
      have hstep : captureStep (q, d) b = (q, d ++ [b]) := by
        simp [captureStep, put_nowait, hlt]
      have hsub : queueMaxsize - q.length = 0 := by omega
      rw [List.foldl_cons, hstep, ih q (d ++ [b]) h, hsub]
      simp

theorem captureRun_eq (bs : List Block) :
    captureRun bs = (bs.take queueMaxsize, bs.drop queueMaxsize) := by
  simpa using captureRun_foldl bs [] [] (by simp)

/-- Claim C1: the `MicTrack` hand-off queue never grows beyond its capacity
of 8 blocks, and the hardware capture callback never blocks: `put_nowait` is
non-blocking, and when the queue is full its `QueueFull` error is caught, so
the callback drops the incoming (newest) block and leaves the queued blocks
unchanged. -/
theorem mic_callback_spec (q : List Block) (b : Block) (h : q.length ≤ queueMaxsize) :
    (micTrackCallback q b).length ≤ queueMaxsize
    ∧ (q.length = queueMaxsize →
        micTrackCallback q b = q ∧ put_nowait q b = .error .full)
    ∧ (q.length < queueMaxsize → micTrackCallback q b = q ++ [b]) := by
  by_cases hlt : q.length < queueMaxsize
  · refine ⟨?_, ?_, ?_⟩
    · simp only [micTrackCallback, put_nowait, if_pos hlt]
      simp only [List.length_append, List.length_cons, List.length_nil]
      omega
    · intro he; omega
    · intro _; simp [micTrackCallback, put_nowait, hlt]
  · refine ⟨?_, ?_, ?_⟩
    · simp only [micTrackCallback, put_nowait, if_neg hlt]
      exact h
    · intro _
      exact ⟨by simp [micTrackCallback, put_nowait, hlt], by simp [put_nowait, hlt]⟩
    · intro hc; omega

/-- Claim C1 witness: a full queue of 8 blocks is left unchanged by the
callback and the internal `put_nowait` raised `QueueFull`. -/
theorem mic_callback_spec_witness :
    micTrackCallback (List.replicate 8 ([0] : Block)) [1] = List.replicate 8 ([0] : Block)
    ∧ put_nowait (List.replicate 8 ([0] : Block)) [1] = .error .full :=
  ⟨((mic_callback_spec (List.replicate 8 ([0] : Block)) [1] (by decide)).2.1 (by decide)).1,
    ((mic_callback_spec (List.replicate 8 ([0] : Block)) [1] (by decide)).2.1 (by decide)).2⟩

/-- Nine distinct capture blocks fed into the empty hand-off queue with no
intervening reads. -/
def bs9 : List Block := [[0], [1], [2], [3], [4], [5], [6], [7], [8]]

/-- Claim C8 counterexample: after 9 callback invocations with no reads, the
code drops the NEWEST excess block (block 8) and retains the oldest 8 —
contrary to the claim that exactly the oldest-excess blocks are dropped
(which would drop block 0 and retain blocks 1..8). -/
theorem capture_drop_counterexample :
    (captureRun bs9).1 = [[0], [1], [2], [3], [4], [5], [6], [7]]
    ∧ (captureRun bs9).2 = [[8]]
    ∧ (captureRun bs9).2 ≠ bs9.take (bs9.length - queueMaxsize)
    ∧ (captureRun bs9).1 ≠ bs9.drop (bs9.length - queueMaxsize) := by
  refine ⟨rfl, rfl, ?_, ?_⟩ <;> decide

/-- Claim C8 (amended): for every sequence of more than 8 capture callback
invocations with no intervening `recv()` calls, exactly the newest-excess
blocks are dropped — the queue retains the oldest 8 blocks, its size never
exceeds 8 at any point, and exactly N - 8 blocks are dropped. -/
theorem capture_overflow_spec (bs : List Block) (h : queueMaxsize < bs.length) :
    (captureRun bs).1 = bs.take queueMaxsize
    ∧ (captureRun bs).2 = bs.drop queueMaxsize
    ∧ (captureRun bs).1.length = queueMaxsize
    ∧ (captureRun bs).2.length = bs.length - queueMaxsize
    ∧ (runSizes bs).all (fun n => decide (n ≤ queueMaxsize)) = true := by
  have hc := captureRun_eq bs
  refine ⟨by rw [hc], by rw [hc], ?_, ?_, ?_⟩
  · rw [hc]
    simp only [List.length_take]
    omega
  · rw [hc]
    simp [List.length_drop]
  · simp only [runSizes, List.all_eq_true, List.mem_map, List.mem_range]
    rintro x ⟨n, _, rfl⟩
    rw [captureRun_eq (bs.take n)]
    simp only [List.length_take, decide_eq_true_eq]
    omega

/-- Claim C8 (amended) witness at the 9-block sequence. -/
theorem capture_overflow_spec_witness :
    (captureRun bs9).1 = bs9.take queueMaxsize
    ∧ (captureRun bs9).2.length = bs9.length - queueMaxsize
    ∧ (runSizes bs9).all (fun n => decide (n ≤ queueMaxsize)) = true :=
  ⟨(capture_overflow_spec bs9 (by decide)).1,
    (capture_overflow_spec bs9 (by decide)).2.2.2.1,
    (capture_overflow_spec bs9 (by decide)).2.2.2.2⟩

/-! Frame pull (`recv`) theorems. -/

theorem recvAllAux_adjacent (bs : List Block) (r : Nat) (h : ∀ b ∈ bs, 0 < b.length) :
    ∀ i, ∀ hi : i + 1 < (recvAllAux bs 0 r).length,
      ((recvAllAux bs 0 r).get ⟨i + 1, hi⟩).pts
        = ((recvAllAux bs 0 r).get ⟨i, Nat.lt_of_succ_lt hi⟩).pts
          + ((recvAllAux bs 0 r).get ⟨i, Nat.lt_of_succ_lt hi⟩).samples
      ∧ ((recvAllAux bs 0 r).get ⟨i, Nat.lt_of_succ_lt hi⟩).pts
          < ((recvAllAux bs 0 r).get ⟨i + 1, hi⟩).pts := by
  intro i hi
  have hpts1 := recvAllAux_get_pts bs 0 r (i + 1) hi
  have hpts0 := recvAllAux_get_pts bs 0 r i (Nat.lt_of_succ_lt hi)
  have hsum := recvAllAux_sum_take bs 0 r i (Nat.lt_of_succ_lt hi)
  have hmem : (recvAllAux bs 0 r).get ⟨i, Nat.lt_of_succ_lt hi⟩ ∈ recvAllAux bs 0 r :=
    List.get_mem _ _ _
  obtain ⟨-, hs⟩ := recvAllAux_mem bs 0 r _ hmem
  have hdmem : ((recvAllAux bs 0 r).get ⟨i, Nat.lt_of_succ_lt hi⟩).data ∈ bs := by
    have hin := List.mem_map_of_mem Frame.data hmem
    rwa [recvAllAux_map_data bs 0 r] at hin
  have hpos : 0 < ((recvAllAux bs 0 r).get ⟨i, Nat.lt_of_succ_lt hi⟩).samples := by
    rw [hs]
    exact h _ hdmem
  constructor
  · omega
  · omega

/-- Claim C2: with N blocks enqueued on the hand-off queue of a fresh
`MicTrack` (pts starts at 0), N `recv()` calls return those blocks in
enqueue order, each wrapped in a frame tagged with the configured sample
rate and `samples = len(pcm)`; the presentation timestamps start at 0 and
strictly increase by exactly the returned block's sample count (blocks are
nonempty: the capture stream delivers 480-sample blocks). -/
theorem mictrack_recv_spec (bs : List Block) (r : Nat) (h : ∀ b ∈ bs, 0 < b.length) :
    (recvAll ⟨bs, 0, r⟩).length = bs.length
    ∧ (recvAll ⟨bs, 0, r⟩).map Frame.data = bs
    ∧ (∀ f ∈ recvAll ⟨bs, 0, r⟩, f.sample_rate = r ∧ f.samples = f.data.length)
    ∧ (∀ h0 : 0 < (recvAll ⟨bs, 0, r⟩).length,
        ((recvAll ⟨bs, 0, r⟩).get ⟨0, h0⟩).pts = 0)
    ∧ (∀ i, ∀ hi : i + 1 < (recvAll ⟨bs, 0, r⟩).length,
        ((recvAll ⟨bs, 0, r⟩).get ⟨i + 1, hi⟩).pts
          = ((recvAll ⟨bs, 0, r⟩).get ⟨i, Nat.lt_of_succ_lt hi⟩).pts
            + ((recvAll ⟨bs, 0, r⟩).get ⟨i, Nat.lt_of_succ_lt hi⟩).samples
        ∧ ((recvAll ⟨bs, 0, r⟩).get ⟨i, Nat.lt_of_succ_lt hi⟩).pts
            < ((recvAll ⟨bs, 0, r⟩).get ⟨i + 1, hi⟩).pts) := by
  exact ⟨recvAllAux_length bs 0 r, recvAllAux_map_data bs 0 r, recvAllAux_mem bs 0 r,
    fun h0 => by simpa using recvAllAux_get_pts bs 0 r 0 h0,
    recvAllAux_adjacent bs r h⟩

/-- Claim C2 witness at two concrete blocks. -/
theorem mictrack_recv_spec_witness :
    (recvAll ⟨[[5, 6], [7]], 0, 24000⟩).length = ([[5, 6], [7]] : List Block).length
    ∧ (recvAll ⟨[[5, 6], [7]], 0, 24000⟩).map Frame.data = [[5, 6], [7]] :=
  ⟨(mictrack_recv_spec [[5, 6], [7]] 24000 (by decide)).1,
    (mictrack_recv_spec [[5, 6], [7]] 24000 (by decide)).2.1⟩

/-! Data-channel transcript handler theorems. -/

/-- Claim C3: a data-channel message that is JSON of the recognized shape
with a string value enqueues exactly that one transcript event; invalid JSON
enqueues nothing; a message whose "type" field is not the string "text"
enqueues nothing; and every exception raised inside the handler body is
caught, so no exception escapes `_on_message` and nothing is enqueued on an
error. -/
theorem on_message_spec :
    (∀ (fs tfs : List (String × Json)) (s : String),
        fs.lookup "type" = some (.jstr "text") →
        fs.lookup "text" = some (.jobj tfs) →
        tfs.lookup "value" = some (.jstr s) →
        handleMessage (some (.jobj fs)) = [.jstr s])
    ∧ handleMessage none = []
    ∧ (∀ j : Json, Json.getField j "type" ≠ some (.jstr "text") →
        handleMessage (some j) = [])
    ∧ (∀ (d : Option Json) (e : PyExn), handlerBody d = .error e →
        handleMessage d = []) := by
  refine ⟨?_, rfl, ?_, ?_⟩
  · intro fs tfs s h1 h2 h3
    simp [handleMessage, handlerBody, h1, h2, h3]
  · intro j hj
    cases j with
    | jobj fs =>
      simp only [Json.getField] at hj
      cases hfl : fs.lookup "type" with
      | none => simp [handleMessage, handlerBody, hfl]
      | some v =>
        cases v with
        | jnull => simp [handleMessage, handlerBody, hfl]
        | jbool b => simp [handleMessage, handlerBody, hfl]
        | jint n => simp [handleMessage, handlerBody, hfl]
        | jarr xs => simp [handleMessage, handlerBody, hfl]
        | jobj o => simp [handleMessage, handlerBody, hfl]
        | jstr s =>
          rcases eq_or_ne s "text" with rfl | hs
          · exact absurd hfl hj
          · simp [handleMessage, handlerBody, hfl, hs]
    | jnull => rfl
    | jbool b => rfl
    | jint n => rfl
    | jstr s => rfl
    | jarr xs => rfl
  · intro d e he
    simp [handleMessage, he]

/-- Claim C3 witness: the recognized shape carrying "hello" yields exactly
one event; invalid JSON and a "type":"other" message yield none. -/
theorem on_message_spec_witness :
    handleMessage (some (textMessage "hello")) = [.jstr "hello"]
    ∧ handleMessage none = []
    ∧ handleMessage (some (.jobj [("type", .jstr "other")])) = [] :=
  ⟨on_message_spec.1 [("type", .jstr "text"), ("text", .jobj [("value", .jstr "hello")])]
      [("value", .jstr "hello")] "hello" rfl rfl rfl,
    on_message_spec.2.1,
    on_message_spec.2.2.1 (.jobj [("type", .jstr "other")])
      (by simp [Json.getField])⟩

/-- Claim C10: a message that is valid JSON with "type" = "text" and a
"text" object whose "value" is a number is enqueued unchanged — the value's
type is never checked, so the transcript queue can hold non-string items. -/
theorem transcript_nonstring_value :
    handleMessage
        (some (.jobj [("type", .jstr "text"), ("text", .jobj [("value", .jint 42)])]))
      = [.jint 42]
    ∧ Json.isStr (.jint 42) = false :=
  ⟨rfl, rfl⟩

theorem transcriptQueue_foldl (msgs : List (Option Json)) (acc : List Json) :
    msgs.foldl (fun q d => q ++ handleMessage d) acc = acc ++ transcriptQueue msgs := by
  induction msgs generalizing acc with
  | nil => simp [transcriptQueue]
  | cons m ms ih =>
    simp only [List.foldl_cons, transcriptQueue, List.nil_append]
    rw [ih, ih, List.append_assoc]

theorem transcriptQueue_append (ms1 ms2 : List (Option Json)) :
    transcriptQueue (ms1 ++ ms2) = transcriptQueue ms1 ++ transcriptQueue ms2 := by
  show (ms1 ++ ms2).foldl _ [] = _
  rw [List.foldl_append, transcriptQueue_foldl ms2 (ms1.foldl _ [])]
  rfl

/-- Claim C4: transcript events reach the `transcripts()` consumer in
control-message receipt order — the handler appends to a FIFO queue and the
consumer drains it in order, so later message batches append after earlier
ones, and feeding the recognized messages carrying "a" then "b" puts "a"
strictly before "b" in the consumed sequence. -/
theorem transcript_order_spec :
    (∀ ms1 ms2 : List (Option Json),
      transcriptQueue (ms1 ++ ms2) = transcriptQueue ms1 ++ transcriptQueue ms2)
    ∧ transcriptQueue [some (textMessage "a"), some (textMessage "b")]
        = [.jstr "a", .jstr "b"] :=
  ⟨transcriptQueue_append, rfl⟩

/-! Teardown (`close`) theorems. -/

/-- Claim C5 counterexample: in the state reached after `connect()` once the
inbound relay `_play` has opened its playback stream, `close()` returns
without error but that playback stream is still open when it returns —
`close()` only touches `_speaker_stream` (which no code path ever assigns),
the mic track and the peer connection; the relay's stream is closed only
later, by the relay task itself, once the closed connection ends its track.
So it is not true that after `close()` returns no audio streams remain
open. -/
theorem close_playback_counterexample :
    (closeRun connectedPlaybackState noFaults).2 = true
    ∧ (closeRun connectedPlaybackState noFaults).1.relayOpen = [true]
    ∧ noOpenHandles (closeRun connectedPlaybackState noFaults).1 = false :=
  ⟨rfl, rfl, rfl⟩

/-- Claim C5 (amended): `close()` called in any state with no failing
teardown step does not throw; after it returns the capture stream and the
transport connection are closed, but playback streams opened by inbound
relay tasks are untouched (they are closed asynchronously by their own relay
task when the inbound track ends). In particular, when no relay playback
stream exists — e.g. before `connect()` completed or when it was never
called — no audio stream and no transport connection handle remains open. -/
theorem close_safe (st : ClientState) :
    (closeRun st noFaults).2 = true
    ∧ (closeRun st noFaults).1.pcOpen = false
    ∧ streamOpen (closeRun st noFaults).1.micOpen = false
    ∧ streamOpen (closeRun st noFaults).1.speakerFieldOpen = false
    ∧ (closeRun st noFaults).1.relayOpen = st.relayOpen
    ∧ (st.relayOpen.any id = false → noOpenHandles (closeRun st noFaults).1 = true) := by
  obtain ⟨pc, mic, spk, relay, sid, br, lds, rds, ta⟩ := st
  cases mic <;> cases spk <;>
    simp [closeRun, closeRun.closeRunMic, closeRun.closeRunPc, noFaults, streamOpen,
      noOpenHandles]

/-- Claim C5 (amended) witness: `close()` on a freshly constructed client
(`connect()` never called) completes and leaves no open handles. -/
theorem close_safe_witness :
    (closeRun initState noFaults).2 = true
    ∧ noOpenHandles (closeRun initState noFaults).1 = true :=
  ⟨(close_safe initState).1, (close_safe initState).2.2.2.2.2 rfl⟩

/-- Claim C7 counterexample: `close()` contains no exception handling — if
stopping the mic track raises, the exception escapes `close()`
(completion flag false) and the subsequent `pc.close()` step never runs, so
the peer connection stays open and the capture stream stays open.  Teardown
failures are not swallowed. -/
theorem close_teardown_counterexample :
    (closeRun connectedPlaybackState ⟨false, true, false⟩).2 = false
    ∧ (closeRun connectedPlaybackState ⟨false, true, false⟩).1.pcOpen = true
    ∧ streamOpen (closeRun connectedPlaybackState ⟨false, true, false⟩).1.micOpen = true :=
  ⟨rfl, rfl, rfl⟩

/-- Claim C7 (amended): during `close()`, a failure in a teardown step is
not swallowed: it propagates out of `close()` and prevents every subsequent
teardown step from running — e.g. with `_speaker_stream` unset (as it always
is) and a mic track present, a failure in the mic-stop step leaves the whole
state unchanged, the peer connection included. -/
theorem close_fault_propagates (st : ClientState) (f : TeardownFaults)
    (hspk : st.speakerFieldOpen = none) (hmic : st.micOpen.isSome = true)
    (hf : f.micStopFails = true) :
    (closeRun st f).1 = st ∧ (closeRun st f).2 = false := by
  cases hmo : st.micOpen with
  | none => rw [hmo] at hmic; simp at hmic
  | some b =>
    unfold closeRun closeRun.closeRunMic
    rw [hspk, hmo, hf]
    simp

/-- Claim C7 (amended) witness: a mic-stop failure in the connected state
aborts `close()` with the state unchanged. -/
theorem close_fault_propagates_witness :
    (closeRun connectedPlaybackState ⟨false, true, false⟩).1 = connectedPlaybackState
    ∧ (closeRun connectedPlaybackState ⟨false, true, false⟩).2 = false :=
  close_fault_propagates connectedPlaybackState ⟨false, true, false⟩ rfl rfl rfl

/-! Session negotiation / connect theorems. -/

/-- Claim C6: when the session-negotiation call returns a non-success
status, `connect()` fails with the `HTTPStatusError` raised by
`raise_for_status` — surfacing the underlying HTTP status — before any
assignment or transport work: the state is returned unchanged, so the
session id and bearer stay unset, no mic track is created or added, and no
local or remote description is set (no half-open transport connection). -/
theorem connect_session_failure (st : ClientState) (res hs : HttpResponse)
    (h : isSuccess res.status = false) :
    connectRun st res hs = (st, some (.httpStatusError res.status))
    ∧ (connectRun initState res hs).1.sessionId = none
    ∧ (connectRun initState res hs).1.bearer = none
    ∧ (connectRun initState res hs).1.micOpen = none
    ∧ (connectRun initState res hs).1.tracksAdded = 0
    ∧ (connectRun initState res hs).1.localDescSet = false
    ∧ (connectRun initState res hs).1.remoteDescSet = false := by
  have hmain : ∀ s : ClientState,
      connectRun s res hs = (s, some (.httpStatusError res.status)) := by
    intro s
    simp [connectRun, createSessionRun, h]
  refine ⟨hmain st, ?_, ?_, ?_, ?_, ?_, ?_⟩ <;> rw [hmain initState] <;> rfl

/-- Claim C6 witness: a 500 response from the negotiation endpoint. -/
theorem connect_session_failure_witness :
    connectRun initState ⟨500, .jnull⟩ ⟨200, .jnull⟩
        = (initState, some (.httpStatusError 500))
    ∧ (connectRun initState ⟨500, .jnull⟩ ⟨200, .jnull⟩).1.sessionId = none :=
  ⟨(connect_session_failure initState ⟨500, .jnull⟩ ⟨200, .jnull⟩ rfl).1,
    (connect_session_failure initState ⟨500, .jnull⟩ ⟨200, .jnull⟩ rfl).2.1⟩

/-! Playback rescaling theorems. -/

/-- Claim C9: in the inbound playback relay `_play`, a frame whose samples
are 16-bit integers is rescaled by dividing each sample by 32768, and every
rescaled value of a valid int16 sample (range -32768..32767) lies in
[-1, 1); frames of any other sample encoding are passed through
unchanged. -/
theorem play_rescale_spec (a : NdArray) :
    (a.dtype = .int16 →
      (rescaleToFloat a).samples = a.samples.map (fun s => s / 32768)
      ∧ ((∀ s ∈ a.samples, -32768 ≤ s ∧ s ≤ 32767) →
          (rescaleToFloat a).samples.all (fun y => decide (-1 ≤ y ∧ y < 1)) = true))
    ∧ (a.dtype ≠ .int16 → rescaleToFloat a = a) := by
  constructor
  · intro hdt
    have hres : (rescaleToFloat a).samples = a.samples.map (fun s => s / 32768) := by
      simp [rescaleToFloat, hdt]
    refine ⟨hres, ?_⟩
    intro hrange
    rw [hres, List.all_eq_true]
    intro y hy
    rw [List.mem_map] at hy
    obtain ⟨s, hs, rfl⟩ := hy
    rw [decide_eq_true_eq]
    obtain ⟨h1, h2⟩ := hrange s hs
    constructor
    · rw [le_div_iff₀ (by norm_num : (0 : ℚ) < 32768)]
      linarith
    · rw [div_lt_one (by norm_num : (0 : ℚ) < 32768)]
      linarith
  · intro hdt
    simp [rescaleToFloat, hdt]

/-- Claim C9 witness: the extreme int16 samples land in [-1, 1) and a
non-int16 frame passes through unchanged. -/
theorem play_rescale_spec_witness :
    (rescaleToFloat ⟨.int16, [-32768, 0, 32767]⟩).samples.all
        (fun y => decide (-1 ≤ y ∧ y < 1)) = true
    ∧ rescaleToFloat ⟨.otherDType, [2]⟩ = ⟨.otherDType, [2]⟩ :=
  ⟨((play_rescale_spec ⟨.int16, [-32768, 0, 32767]⟩).1 rfl).2 (by norm_num),
    (play_rescale_spec ⟨.otherDType, [2]⟩).2 (by simp)⟩

end RealtimeClient
